import Mathlib

/-!
# Verification of the Harmonic Oscillator finite-difference eigensolver

Shallow embedding of the numeric kernel found in
`dimensionality-reduction/Harmonic Oscillator Challenge.ipynb`:

* `generate_second_derivative_matrix` — dense five-point finite-difference
  second-derivative operator built as a sum of banded `np.diag` matrices,
  with the spacing taken from the first interval of the grid;
* `generate_potential_matrix` — diagonal matrix of squared grid coordinates;
* `HO_solver` — forms `H = -D2 + alpha * V`, calls a dense symmetric
  eigendecomposition (`np.linalg.eigh`, an external library routine that we
  model as an oracle together with its standard contract), and returns
  `[evals[0], evects.T[0]]`.

Exact arithmetic: the grid/operator builders are embedded over `ℚ` (the
source's floating-point expressions are rational in the inputs), and the
eigensolver layer over `ℝ`, where the spectral statements live.
-/

namespace HO

open Matrix

/-! ## Operator builders (from the notebook source) -/

/-- Embedding of `np.diag(np.ones(n - |k|) * c, k)`: the `n × n` matrix with
the constant `c` on the `k`-th diagonal (entries `(i, j)` with `j - i = k`)
and `0` elsewhere. -/
def npdiag (n : ℕ) (k : ℤ) (c : ℚ) : Matrix (Fin n) (Fin n) ℚ :=
  Matrix.of fun i j => if (j : ℤ) - (i : ℤ) = k then c else 0

/-- Embedding of `np.diag(v)` for a vector `v`: the diagonal matrix with
`v` on the main diagonal. -/
def npdiagvec {n : ℕ} (v : Fin n → ℚ) : Matrix (Fin n) (Fin n) ℚ :=
  Matrix.of fun i j => if i = j then v i else 0

/-- Embedding of `generate_second_derivative_matrix(xgrid)`:

```
N = len(xgrid)
dx = xgrid[1]-xgrid[0]
main_diag = np.ones(N) * (-5.0 /2 / dx**2)
off_diag = np.ones(N - 1)* 4/3 / dx**2
off_diag2 = np.ones(N - 2) * (-1.0 / (12 * dx**2))
D2 = np.diag(main_diag) + np.diag(off_diag, k=1) + np.diag(off_diag, k=-1)
     + np.diag(off_diag2, k=2) + np.diag(off_diag2, k=-2)
```

For `N ≤ 1` the source raises (`xgrid[1]` is out of bounds for `N ≤ 1`, and
`np.ones(N - 2)` gets a negative size for `N = 1`); we model that as `none`. -/
def generate_second_derivative_matrix {n : ℕ} (xgrid : Fin n → ℚ) :
    Option (Matrix (Fin n) (Fin n) ℚ) :=
  if h : 2 ≤ n then
    let dx : ℚ := xgrid ⟨1, h⟩ - xgrid ⟨0, by omega⟩
    some (npdiag n 0 (-5 / 2 / dx ^ 2)
      + npdiag n 1 (4 / 3 / dx ^ 2) + npdiag n (-1) (4 / 3 / dx ^ 2)
      + npdiag n 2 (-1 / (12 * dx ^ 2)) + npdiag n (-2) (-1 / (12 * dx ^ 2)))
  else none

/-- Embedding of `generate_potential_matrix(xgrid) = np.diag(xgrid**2)`. -/
def generate_potential_matrix {n : ℕ} (xgrid : Fin n → ℚ) :
    Matrix (Fin n) (Fin n) ℚ :=
  npdiagvec (fun i => xgrid i ^ 2)

/-! ## Error model of the specified component interface -/

/-- Error kinds of the specified component
(`InvalidArgument`, `DimensionMismatch`, `NonConvergence`). -/
inductive SolverError where
  | InvalidArgument : SolverError
  | DimensionMismatch : SolverError
  | NonConvergence : SolverError
deriving DecidableEq, Repr

/-- Modelled from the spec: `buildGrid(xMax, N) -> Grid` is absent from the
source (the notebook only calls `np.linspace(-x_max, x_max, N_grid)` with no
validation); the spec requires it to fail with `InvalidArgument` if `N < 5`
or `xMax ≤ 0`, and otherwise return the uniform grid of `N` points on
`[-xMax, xMax]` with spacing `2 * xMax / (N - 1)`. -/
def buildGrid (xMax : ℚ) (N : ℕ) : Except SolverError (Fin N → ℚ) :=
  if N < 5 ∨ xMax ≤ 0 then .error .InvalidArgument
  else .ok fun i => -xMax + 2 * xMax * (i : ℚ) / ((N : ℚ) - 1)

/-! ## The dense eigensolver wrapper `HO_solver`

`np.linalg.eigh` is an external library routine (the spec lists the dense
linear-algebra library as an external collaborator).  We model it as an
oracle parameter `eigh` together with its standard documented contract
`EighSpec`: eigenvalues in ascending order, orthonormal eigenvector columns,
and `H = Q · diag(w) · Qᵀ`.  The dimension is `n + 1`: the source indexes
`evals[0]` and `evects.T[0]`, which requires a non-empty matrix. -/

/-- Standard contract of a dense symmetric eigendecomposition `eigh H = (w, Q)`:
ascending eigenvalues, orthonormal columns, `H = Q * diag w * Qᵀ`. -/
def EighSpec {n : ℕ} (H : Matrix (Fin n) (Fin n) ℝ)
    (w : Fin n → ℝ) (Q : Matrix (Fin n) (Fin n) ℝ) : Prop :=
  (∀ i j : Fin n, i ≤ j → w i ≤ w j)
    ∧ Q.transpose * Q = 1
    ∧ H = Q * Matrix.diagonal w * Q.transpose

/-- Embedding of `HO_solver(alpha, D2Mat, vpot)`:

```
H = -D2Mat + alpha*vpot
evals,evects = np.linalg.eigh(H)
return [evals[0],evects.T[0]]
```

`evects.T[0]` is the first row of the transpose, i.e. the first column. -/
def HO_solver {n : ℕ}
    (eigh : Matrix (Fin (n + 1)) (Fin (n + 1)) ℝ →
      (Fin (n + 1) → ℝ) × Matrix (Fin (n + 1)) (Fin (n + 1)) ℝ)
    (alpha : ℝ) (D2Mat vpot : Matrix (Fin (n + 1)) (Fin (n + 1)) ℝ) :
    ℝ × (Fin (n + 1) → ℝ) :=
  let H := -D2Mat + alpha • vpot
  let ev := eigh H
  (ev.1 0, fun i => ev.2 i 0)

/-! ## Heap-level model of the solver call

To give the frame/purity claims content, we also run the same body over an
explicit store of numpy arrays: each array is an entry of a list, references
are list indices, and every numpy operation allocates a fresh array at the
end of the store (as `-`, `+`, `*` and `eigh` do in the source; none of them
writes in place). -/

/-- A store of allocated `(n+1) × (n+1)` arrays. -/
abbrev NpHeap (n : ℕ) := List (Matrix (Fin (n + 1)) (Fin (n + 1)) ℝ)

/-- The body of `HO_solver` acting on a store: reads the operand arrays at
indices `d2` and `v`, allocates the freshly built `H`, and returns the new
store together with the returned eigenpair. -/
def HO_solver_prog {n : ℕ}
    (eigh : Matrix (Fin (n + 1)) (Fin (n + 1)) ℝ →
      (Fin (n + 1) → ℝ) × Matrix (Fin (n + 1)) (Fin (n + 1)) ℝ)
    (alpha : ℝ) (heap : NpHeap n) (d2 v : ℕ) :
    NpHeap n × (ℝ × (Fin (n + 1) → ℝ)) :=
  let D2Mat := heap.getD d2 0
  let vpot := heap.getD v 0
  let H := -D2Mat + alpha • vpot
  let heap' := heap ++ [H]
  let ev := eigh H
  (heap', (ev.1 0, fun i => ev.2 i 0))

/-! ## Spec-modelled error interface of `solveGroundState`

The typed error reporting (`DimensionMismatch`, `NonConvergence`) exists only
in the spec's component design; the notebook's `HO_solver` performs no checks
and lets the library raise.  To express shape mismatch at all, this model
works on untyped list-of-rows matrices. -/

/-- The shape of an untyped list-of-rows matrix. -/
def shape (A : List (List ℝ)) : ℕ × List ℕ := (A.length, A.map List.length)

/-- Elementwise `-D2Mat + alpha * vpot` on list-of-rows matrices. -/
def hamiltonianLL (alpha : ℝ) (D2Mat vpot : List (List ℝ)) : List (List ℝ) :=
  List.zipWith (fun r1 r2 => List.zipWith (fun a b => -a + alpha * b) r1 r2) D2Mat vpot

/-- Modelled from the spec: `solveGroundState(alpha, D2, V)` with the spec's
error reporting, which is absent from the source (`HO_solver` does no
validation).  It fails with `DimensionMismatch` if the shapes of `D2` and `V`
differ, surfaces the decomposition's `NonConvergence` failure unchanged, and
otherwise returns the first eigenvalue and the first column of the
eigenvector matrix. -/
def solveGroundState
    (eigh : List (List ℝ) → Except SolverError (List ℝ × List (List ℝ)))
    (alpha : ℝ) (D2Mat vpot : List (List ℝ)) : Except SolverError (ℝ × List ℝ) :=
  if shape D2Mat ≠ shape vpot then .error .DimensionMismatch
  else
    match eigh (hamiltonianLL alpha D2Mat vpot) with
    | .error e => .error e
    | .ok (evals, evects) => .ok (evals.headD 0, evects.map (fun r => r.headD 0))

/-! ## Concrete example data (used by the witnesses) -/

/-- A constant eigendecomposition oracle used by the `1 × 1` witnesses. -/
def eighEx : Matrix (Fin 1) (Fin 1) ℝ →
    (Fin 1 → ℝ) × Matrix (Fin 1) (Fin 1) ℝ := fun _ => (fun _ => 2, 1)

/-- Closed form of the stencil matrix entries: the value placed at offset
`d = j - i` for grid spacing `dx`. -/
def stencilEntry (dx : ℚ) (d : ℤ) : ℚ :=
  if d = 0 then -5 / 2 / dx ^ 2
  else if d.natAbs = 1 then 4 / 3 / dx ^ 2
  else if d.natAbs = 2 then -1 / (12 * dx ^ 2)
  else 0

/-- Example uniform grid with `N = 5` points and spacing `1`. -/
def gridEx5 : Fin 5 → ℚ := ![0, 1, 2, 3, 4]

/-- The stencil matrix produced from `gridEx5` (spacing `1`). -/
def D2ex5 : Matrix (Fin 5) (Fin 5) ℚ :=
  Matrix.of fun i j => stencilEntry 1 ((j : ℤ) - (i : ℤ))

/-- The grid delivered by `buildGrid 10 5`. -/
def gridB5 : Fin 5 → ℚ := fun i => -10 + 2 * 10 * (i : ℚ) / ((5 : ℚ) - 1)

/-! ## Helper lemmas about the operator builders -/

/-- Collapsing the five banded summands into a single conditional. -/
lemma stencil_if_sum (d : ℤ) (c0 c1 c2 : ℚ) :
    ((if d = 0 then c0 else 0) + (if d = 1 then c1 else 0) + (if d = -1 then c1 else 0)
      + (if d = 2 then c2 else 0) + (if d = -2 then c2 else 0))
    = if d = 0 then c0 else if d.natAbs = 1 then c1
      else if d.natAbs = 2 then c2 else 0 := by
  split_ifs <;> first | omega | ring

/-- Entry formula for the produced stencil matrix, in terms of the first
grid interval. -/
lemma D2_apply {n : ℕ} (xgrid : Fin n → ℚ) (D2 : Matrix (Fin n) (Fin n) ℚ)
    (hD2 : generate_second_derivative_matrix xgrid = some D2) (h2 : 2 ≤ n)
    (i j : Fin n) :
    D2 i j = stencilEntry (xgrid ⟨1, h2⟩ - xgrid ⟨0, by omega⟩) ((j : ℤ) - (i : ℤ)) := by
  rw [generate_second_derivative_matrix, dif_pos h2] at hD2
  obtain rfl : _ = D2 := Option.some_injective _ hD2
  simp only [Matrix.add_apply, npdiag, Matrix.of_apply]
  exact stencil_if_sum _ _ _ _

/-- The entry value only depends on the distance to the diagonal. -/
lemma stencilEntry_neg (dx : ℚ) (d : ℤ) : stencilEntry dx (-d) = stencilEntry dx d := by
  unfold stencilEntry
  have h0 : (-d = 0) ↔ (d = 0) := by omega
  have h1 : (-d).natAbs = d.natAbs := by omega
  rw [h1, if_congr h0 rfl rfl]

/-- Stencil construction succeeds exactly when the grid has at least two
points. -/
lemma gen_isSome {n : ℕ} (xgrid : Fin n → ℚ) (h2 : 2 ≤ n) :
    (generate_second_derivative_matrix xgrid).isSome := by
  rw [generate_second_derivative_matrix, dif_pos h2]
  rfl

/-- Evaluation of the stencil builder on the example grid. -/
lemma genEx5 : generate_second_derivative_matrix gridEx5 = some D2ex5 := by
  rw [generate_second_derivative_matrix, dif_pos (by norm_num : 2 ≤ 5)]
  refine congrArg some ?_
  ext i j
  have h1 : gridEx5 ⟨1, by norm_num⟩ - gridEx5 ⟨0, by norm_num⟩ = 1 := by
    norm_num [gridEx5]
  simp only [Matrix.add_apply, npdiag, Matrix.of_apply, h1, D2ex5, stencilEntry]
  exact stencil_if_sum _ _ _ _

/-- The example grid is uniform with spacing `1`. -/
lemma gridEx5_uniform : ∀ i : ℕ, ∀ h : i + 1 < 5,
    gridEx5 ⟨i + 1, h⟩ - gridEx5 ⟨i, by omega⟩ = 1 := by
  intro i h
  have h4 : i < 4 := by omega
  interval_cases i <;> norm_num [gridEx5]

/-! ## Claim theorems for the operator builders -/

/-- Claim C2: on a uniform grid of `N ≥ 5` points with spacing `dx`, the
matrix built by `generate_second_derivative_matrix` has `-5/(2·dx²)` on the
main diagonal, `4/(3·dx²)` on diagonals `±1`, `-1/(12·dx²)` on diagonals
`±2`, and `0` everywhere else; rows near the boundary simply have the
out-of-range stencil entries dropped (no periodic or reflective terms). -/
theorem D2_entries {n : ℕ} (xgrid : Fin n → ℚ) (dx : ℚ) (h5 : 5 ≤ n)
    (huni : ∀ i : ℕ, ∀ h : i + 1 < n,
      xgrid ⟨i + 1, h⟩ - xgrid ⟨i, by omega⟩ = dx)
    (D2 : Matrix (Fin n) (Fin n) ℚ)
    (hD2 : generate_second_derivative_matrix xgrid = some D2) :
    ∀ i j : Fin n, D2 i j =
      if i = j then -5 / (2 * dx ^ 2)
      else if ((i : ℤ) - (j : ℤ)).natAbs = 1 then 4 / (3 * dx ^ 2)
      else if ((i : ℤ) - (j : ℤ)).natAbs = 2 then -1 / (12 * dx ^ 2)
      else 0 := by
  intro i j
  have h2 : 2 ≤ n := by omega
  rw [D2_apply xgrid D2 hD2 h2 i j]
  have hdx : xgrid ⟨1, h2⟩ - xgrid ⟨0, by omega⟩ = dx := huni 0 h2
  simp only [hdx, stencilEntry]
  have habs : ((i : ℤ) - (j : ℤ)).natAbs = ((j : ℤ) - (i : ℤ)).natAbs := by omega
  have hij : (i = j) ↔ ((j : ℤ) - (i : ℤ)) = 0 := by
    constructor
    · rintro rfl; omega
    · intro h; exact Fin.ext (by omega)
  rw [habs, if_congr hij rfl rfl]
  split_ifs <;> ring

/-- Witness for C2 on the concrete uniform 5-point grid `0,1,2,3,4`. -/
theorem D2_entries_witness :
    (∀ i : ℕ, ∀ h : i + 1 < 5, gridEx5 ⟨i + 1, h⟩ - gridEx5 ⟨i, by omega⟩ = 1)
    ∧ (generate_second_derivative_matrix gridEx5 = some D2ex5)
    ∧ (∀ i j : Fin 5, D2ex5 i j =
        if i = j then -5 / (2 * 1 ^ 2)
        else if ((i : ℤ) - (j : ℤ)).natAbs = 1 then 4 / (3 * 1 ^ 2)
        else if ((i : ℤ) - (j : ℤ)).natAbs = 2 then -1 / (12 * 1 ^ 2)
        else 0) :=
  ⟨gridEx5_uniform, genEx5,
    D2_entries gridEx5 1 (by norm_num) gridEx5_uniform D2ex5 genEx5⟩

/-- Claim C5: for every grid with `N ≥ 5` points, the stencil matrix equals
its own transpose. -/
theorem D2_symm {n : ℕ} (xgrid : Fin n → ℚ) (h5 : 5 ≤ n)
    (D2 : Matrix (Fin n) (Fin n) ℚ)
    (hD2 : generate_second_derivative_matrix xgrid = some D2) :
    D2.transpose = D2 := by
  have h2 : 2 ≤ n := by omega
  ext i j
  rw [Matrix.transpose_apply, D2_apply xgrid D2 hD2 h2, D2_apply xgrid D2 hD2 h2]
  rw [show (i : ℤ) - (j : ℤ) = -((j : ℤ) - (i : ℤ)) by ring, stencilEntry_neg]

/-- Witness for C5 on the concrete 5-point grid. -/
theorem D2_symm_witness :
    (generate_second_derivative_matrix gridEx5 = some D2ex5)
    ∧ D2ex5.transpose = D2ex5 :=
  ⟨genEx5, D2_symm gridEx5 (by norm_num) D2ex5 genEx5⟩

/-- Claim C6: the potential matrix is diagonal with the squared grid
coordinates on the diagonal, every off-diagonal entry is `0`, and every
entry is non-negative. -/
theorem potential_diag {n : ℕ} (xgrid : Fin n → ℚ) (i j : Fin n) :
    generate_potential_matrix xgrid i i = xgrid i ^ 2
    ∧ (i ≠ j → generate_potential_matrix xgrid i j = 0)
    ∧ 0 ≤ generate_potential_matrix xgrid i j := by
  refine ⟨by simp [generate_potential_matrix, npdiagvec], fun hne => ?_, ?_⟩
  · simp [generate_potential_matrix, npdiagvec, hne]
  · by_cases h : i = j
    · subst h
      simp only [generate_potential_matrix, npdiagvec, Matrix.of_apply, if_pos rfl]
      positivity
    · simp [generate_potential_matrix, npdiagvec, h]

/-- Witness for C6 on the concrete grid `3, 4`. -/
theorem potential_diag_witness :
    generate_potential_matrix (![3, 4] : Fin 2 → ℚ) 0 0 = 9
    ∧ ((0 : Fin 2) ≠ 1 → generate_potential_matrix (![3, 4] : Fin 2 → ℚ) 0 1 = 0)
    ∧ 0 ≤ generate_potential_matrix (![3, 4] : Fin 2 → ℚ) 0 1 := by
  have h := potential_diag (![3, 4] : Fin 2 → ℚ) 0 1
  refine ⟨?_, h.2.1, h.2.2⟩
  rw [h.1]
  norm_num

/-- Claim C10: the stencil matrix depends only on the grid length and on the
difference of the first two grid points; two equal-length grids with the same
first interval produce entrywise equal matrices, so a non-uniform grid is
silently treated as uniform with its first spacing. -/
theorem D2_first_interval_only {n : ℕ} (A B : Fin n → ℚ) (h2 : 2 ≤ n)
    (hAB : A ⟨1, h2⟩ - A ⟨0, by omega⟩ = B ⟨1, h2⟩ - B ⟨0, by omega⟩) :
    generate_second_derivative_matrix A = generate_second_derivative_matrix B := by
  rw [generate_second_derivative_matrix, generate_second_derivative_matrix,
    dif_pos h2, dif_pos h2]
  simp only [hAB]

/-- Witness for C10: the non-uniform grid `0, 1, 5` and the uniform grid
`2, 3, 4` share the first interval and get the same stencil matrix. -/
theorem D2_first_interval_only_witness :
    ((![0, 1, 5] : Fin 3 → ℚ) ⟨1, by norm_num⟩ - (![0, 1, 5] : Fin 3 → ℚ) ⟨0, by norm_num⟩
      = (![2, 3, 4] : Fin 3 → ℚ) ⟨1, by norm_num⟩ - (![2, 3, 4] : Fin 3 → ℚ) ⟨0, by norm_num⟩)
    ∧ generate_second_derivative_matrix (![0, 1, 5] : Fin 3 → ℚ)
      = generate_second_derivative_matrix (![2, 3, 4] : Fin 3 → ℚ) :=
  ⟨by norm_num, D2_first_interval_only ![0, 1, 5] ![2, 3, 4] (by norm_num) (by norm_num)⟩

/-- Claim C3: `buildGrid` fails with `InvalidArgument` exactly when `N < 5`
or `xMax ≤ 0`, and on any grid it returns the stencil construction succeeds. -/
theorem buildGrid_spec (xMax : ℚ) (N : ℕ) :
    ((buildGrid xMax N = .error .InvalidArgument) ↔ (N < 5 ∨ xMax ≤ 0))
    ∧ (∀ g : Fin N → ℚ, buildGrid xMax N = .ok g →
        (generate_second_derivative_matrix g).isSome) := by
  constructor
  · unfold buildGrid
    split_ifs with h
    · simpa using h
    · simp [h]
  · intro g hg
    unfold buildGrid at hg
    split_ifs at hg with h
    exact gen_isSome g (by omega)

/-- Witness for C3: `N = 4` is rejected with `InvalidArgument`; `N = 5`
succeeds and stencil construction on the returned grid does not fail. -/
theorem buildGrid_spec_witness :
    (buildGrid 10 4 = .error .InvalidArgument)
    ∧ (buildGrid 10 5 = .ok gridB5)
    ∧ (generate_second_derivative_matrix gridB5).isSome := by
  have hok : buildGrid 10 5 = .ok gridB5 := by
    rw [buildGrid, if_neg (by norm_num)]
    rfl
  exact ⟨(buildGrid_spec 10 4).1.mpr (Or.inl (by norm_num)), hok,
    (buildGrid_spec 10 5).2 gridB5 hok⟩

/-! ## Helper lemmas about the eigensolver -/

/-- Spectral facts under the `eigh` contract: the first column of `Q` is an
eigenvector of `H` for the first eigenvalue, it is nonzero, and the first
eigenvalue is a lower bound on every eigenvalue of `H`. -/
lemma eigh_min {n : ℕ} (H : Matrix (Fin (n + 1)) (Fin (n + 1)) ℝ)
    (w : Fin (n + 1) → ℝ) (Q : Matrix (Fin (n + 1)) (Fin (n + 1)) ℝ)
    (hspec : EighSpec H w Q) :
    (H *ᵥ (fun i => Q i 0) = w 0 • (fun i => Q i 0)
      ∧ (fun i => Q i 0) ≠ 0)
    ∧ ∀ mu : ℝ, (∃ x : Fin (n + 1) → ℝ, x ≠ 0 ∧ H *ᵥ x = mu • x) → w 0 ≤ mu := by
  obtain ⟨hmono, horth, hdecomp⟩ := hspec
  have horth' : Q * Q.transpose = 1 := Matrix.mul_eq_one_comm.mp horth
  have hHQ : H * Q = Q * Matrix.diagonal w := by
    rw [hdecomp, Matrix.mul_assoc, Matrix.mul_assoc, horth, Matrix.mul_one]
  have hcolnorm : ∑ k, Q k 0 * Q k 0 = 1 := by
    have h00 := congrFun (congrFun horth 0) 0
    simpa [Matrix.mul_apply, Matrix.transpose_apply, Matrix.one_apply] using h00
  constructor
  · constructor
    · funext i
      have h1 : (H *ᵥ fun k => Q k 0) i = (H * Q) i 0 := by
        simp [Matrix.mulVec, Matrix.mul_apply, dotProduct]
      rw [h1, hHQ, Matrix.mul_diagonal]
      simp [mul_comm]
    · intro hzero
      have hcol : ∀ k, Q k 0 = 0 := fun k => congrFun hzero k
      rw [Finset.sum_eq_zero (fun k _ => by rw [hcol k, mul_zero])] at hcolnorm
      exact one_ne_zero hcolnorm.symm
  · rintro mu ⟨x, hx, hHx⟩
    set y : Fin (n + 1) → ℝ := Q.transpose *ᵥ x with hy
    have hQtH : Q.transpose * H = Matrix.diagonal w * Q.transpose := by
      rw [hdecomp, ← Matrix.mul_assoc, ← Matrix.mul_assoc, horth, Matrix.one_mul]
    have hDy : Matrix.diagonal w *ᵥ y = mu • y := by
      rw [hy, Matrix.mulVec_mulVec, ← hQtH, ← Matrix.mulVec_mulVec, hHx,
        Matrix.mulVec_smul]
    have hyne : y ≠ 0 := by
      intro h0
      apply hx
      have hQy : Q *ᵥ y = x := by
        rw [hy, Matrix.mulVec_mulVec, horth', Matrix.one_mulVec]
      rw [h0, Matrix.mulVec_zero] at hQy
      exact hQy.symm
    obtain ⟨i, hi⟩ := Function.ne_iff.mp hyne
    have hwi : w i = mu := by
      have hDyi := congrFun hDy i
      rw [Matrix.mulVec_diagonal] at hDyi
      have hsmul : (mu • y) i = mu * y i := rfl
      rw [hsmul] at hDyi
      exact mul_right_cancel₀ hi hDyi
    calc w 0 ≤ w i := hmono 0 i (Fin.zero_le i)
      _ = mu := hwi

/-- Evaluation of the contract for the constant oracle on the `1 × 1`
Hamiltonian `-0 + 2 • 1`. -/
lemma eighEx_spec :
    EighSpec (-(0 : Matrix (Fin 1) (Fin 1) ℝ) + (2 : ℝ) • (1 : Matrix (Fin 1) (Fin 1) ℝ))
      (eighEx (-(0 : Matrix (Fin 1) (Fin 1) ℝ) + (2 : ℝ) • 1)).1
      (eighEx (-(0 : Matrix (Fin 1) (Fin 1) ℝ) + (2 : ℝ) • 1)).2 := by
  refine ⟨fun i j _ => le_refl _, by simp [eighEx], ?_⟩
  ext i j
  fin_cases i
  fin_cases j
  simp [eighEx, Matrix.diagonal]

/-! ## Claim theorems for the eigensolver -/

/-- Claim C1: for `alpha > 0` and equal-dimension symmetric `D2` and `V`,
under the standard contract of the symmetric eigendecomposition, `HO_solver`
returns as first component the minimum eigenvalue of `H = -D2 + alpha·V` and
as second component an eigenvector of `H` for that eigenvalue. -/
theorem HO_solver_ground_state {n : ℕ}
    (eigh : Matrix (Fin (n + 1)) (Fin (n + 1)) ℝ →
      (Fin (n + 1) → ℝ) × Matrix (Fin (n + 1)) (Fin (n + 1)) ℝ)
    (alpha : ℝ) (D2Mat vpot : Matrix (Fin (n + 1)) (Fin (n + 1)) ℝ)
    (_halpha : 0 < alpha) (_hD2 : D2Mat.IsSymm) (_hV : vpot.IsSymm)
    (hspec : EighSpec (-D2Mat + alpha • vpot)
      (eigh (-D2Mat + alpha • vpot)).1 (eigh (-D2Mat + alpha • vpot)).2) :
    ((-D2Mat + alpha • vpot) *ᵥ (HO_solver eigh alpha D2Mat vpot).2
        = (HO_solver eigh alpha D2Mat vpot).1 • (HO_solver eigh alpha D2Mat vpot).2
      ∧ (HO_solver eigh alpha D2Mat vpot).2 ≠ 0)
    ∧ ∀ mu : ℝ,
        (∃ x : Fin (n + 1) → ℝ, x ≠ 0 ∧ (-D2Mat + alpha • vpot) *ᵥ x = mu • x) →
        (HO_solver eigh alpha D2Mat vpot).1 ≤ mu :=
  eigh_min (-D2Mat + alpha • vpot) _ _ hspec

/-- Witness for C1 on concrete `1 × 1` data: `alpha = 2`, `D2 = 0`, `V = 1`. -/
theorem HO_solver_ground_state_witness :
    ((0 : ℝ) < 2
      ∧ (0 : Matrix (Fin 1) (Fin 1) ℝ).IsSymm
      ∧ (1 : Matrix (Fin 1) (Fin 1) ℝ).IsSymm)
    ∧ (((-(0 : Matrix (Fin 1) (Fin 1) ℝ) + (2 : ℝ) • 1) *ᵥ (HO_solver eighEx 2 0 1).2
          = (HO_solver eighEx 2 0 1).1 • (HO_solver eighEx 2 0 1).2
        ∧ (HO_solver eighEx 2 0 1).2 ≠ 0)
      ∧ ∀ mu : ℝ,
          (∃ x : Fin 1 → ℝ, x ≠ 0
            ∧ (-(0 : Matrix (Fin 1) (Fin 1) ℝ) + (2 : ℝ) • 1) *ᵥ x = mu • x) →
          (HO_solver eighEx 2 0 1).1 ≤ mu) :=
  ⟨⟨by norm_num, Matrix.isSymm_zero, Matrix.isSymm_one⟩,
    HO_solver_ground_state eighEx 2 0 1 (by norm_num)
      Matrix.isSymm_zero Matrix.isSymm_one eighEx_spec⟩

/-- Claim C7: for `alpha > 0`, symmetric `D2` and diagonal `V`, under the
eigendecomposition contract the eigenvector returned by `HO_solver` has
Euclidean 2-norm exactly `1` (hence within any tolerance). -/
theorem HO_solver_unit_norm {n : ℕ}
    (eigh : Matrix (Fin (n + 1)) (Fin (n + 1)) ℝ →
      (Fin (n + 1) → ℝ) × Matrix (Fin (n + 1)) (Fin (n + 1)) ℝ)
    (alpha : ℝ) (D2Mat vpot : Matrix (Fin (n + 1)) (Fin (n + 1)) ℝ)
    (_halpha : 0 < alpha) (_hD2 : D2Mat.IsSymm) (_hVdiag : vpot.IsDiag)
    (hspec : EighSpec (-D2Mat + alpha • vpot)
      (eigh (-D2Mat + alpha • vpot)).1 (eigh (-D2Mat + alpha • vpot)).2) :
    Real.sqrt (∑ i, ((HO_solver eigh alpha D2Mat vpot).2 i) ^ 2) = 1 := by
  obtain ⟨-, horth, -⟩ := hspec
  have h00 := congrFun (congrFun horth 0) 0
  have hsum : ∑ k, ((HO_solver eigh alpha D2Mat vpot).2 k) ^ 2 = 1 := by
    simpa [Matrix.mul_apply, Matrix.transpose_apply, Matrix.one_apply, HO_solver,
      pow_two] using h00
  rw [hsum, Real.sqrt_one]

/-- Witness for C7 on the same concrete `1 × 1` data. -/
theorem HO_solver_unit_norm_witness :
    ((0 : ℝ) < 2 ∧ (1 : Matrix (Fin 1) (Fin 1) ℝ).IsDiag)
    ∧ Real.sqrt (∑ i, ((HO_solver eighEx 2 0 1).2 i) ^ 2) = 1 :=
  ⟨⟨by norm_num, Matrix.isDiag_one⟩,
    HO_solver_unit_norm eighEx 2 0 1 (by norm_num)
      Matrix.isSymm_zero Matrix.isDiag_one eighEx_spec⟩

/-- Claim C8: the solver call has no side effects on the store: every array
allocated before the call — in particular the operands `D2` and `V` — is
entrywise unchanged afterwards; the call only allocates. -/
theorem HO_solver_frame {n : ℕ}
    (eigh : Matrix (Fin (n + 1)) (Fin (n + 1)) ℝ →
      (Fin (n + 1) → ℝ) × Matrix (Fin (n + 1)) (Fin (n + 1)) ℝ)
    (alpha : ℝ) (heap : NpHeap n) (d2 v : ℕ) :
    ∀ i : ℕ, i < heap.length →
      ((HO_solver_prog eigh alpha heap d2 v).1).getD i 0 = heap.getD i 0 := by
  intro i hi
  show (heap ++ [_]).getD i 0 = heap.getD i 0
  rw [List.getD_append _ _ _ _ hi]

/-- Witness for C8: a two-array store; both pre-existing arrays are unchanged
by the call. -/
theorem HO_solver_frame_witness :
    ((0 : ℕ) < ([0, 1] : NpHeap 0).length ∧ (1 : ℕ) < ([0, 1] : NpHeap 0).length)
    ∧ ((HO_solver_prog eighEx 2 [0, 1] 0 1).1.getD 0 0 = ([0, 1] : NpHeap 0).getD 0 0
      ∧ (HO_solver_prog eighEx 2 [0, 1] 0 1).1.getD 1 0 = ([0, 1] : NpHeap 0).getD 1 0) :=
  ⟨⟨by norm_num, by norm_num⟩,
    HO_solver_frame eighEx 2 [0, 1] 0 1 0 (by norm_num),
    HO_solver_frame eighEx 2 [0, 1] 0 1 1 (by norm_num)⟩

/-- Claim C9: the solver is deterministic and keeps no hidden state: a second
call with the identical inputs, run on the store left by the first call,
returns the identical eigenvalue and entrywise identical eigenvector. -/
theorem HO_solver_prog_deterministic {n : ℕ}
    (eigh : Matrix (Fin (n + 1)) (Fin (n + 1)) ℝ →
      (Fin (n + 1) → ℝ) × Matrix (Fin (n + 1)) (Fin (n + 1)) ℝ)
    (alpha : ℝ) (heap : NpHeap n) (d2 v : ℕ)
    (hd2 : d2 < heap.length) (hv : v < heap.length) :
    (HO_solver_prog eigh alpha ((HO_solver_prog eigh alpha heap d2 v).1) d2 v).2
      = (HO_solver_prog eigh alpha heap d2 v).2 := by
  show (HO_solver_prog eigh alpha (heap ++ [_]) d2 v).2 = _
  unfold HO_solver_prog
  rw [List.getD_append _ _ _ _ hd2, List.getD_append _ _ _ _ hv]

/-- Witness for C9 on the two-array store. -/
theorem HO_solver_prog_deterministic_witness :
    ((0 : ℕ) < ([0, 1] : NpHeap 0).length ∧ (1 : ℕ) < ([0, 1] : NpHeap 0).length)
    ∧ (HO_solver_prog eighEx 2 ((HO_solver_prog eighEx 2 [0, 1] 0 1).1) 0 1).2
      = (HO_solver_prog eighEx 2 [0, 1] 0 1).2 :=
  ⟨⟨by norm_num, by norm_num⟩,
    HO_solver_prog_deterministic eighEx 2 [0, 1] 0 1 (by norm_num) (by norm_num)⟩

/-- Claim C4: the spec-modelled `solveGroundState` fails with
`DimensionMismatch` when the shapes of `D2` and `V` differ, surfaces
`NonConvergence` from the decomposition, and returns no partial result in any
failure case. -/
theorem solveGroundState_errors
    (eigh : List (List ℝ) → Except SolverError (List ℝ × List (List ℝ)))
    (alpha : ℝ) (D2Mat vpot : List (List ℝ)) :
    (shape D2Mat ≠ shape vpot →
      solveGroundState eigh alpha D2Mat vpot = .error .DimensionMismatch)
    ∧ (shape D2Mat = shape vpot →
        eigh (hamiltonianLL alpha D2Mat vpot) = .error .NonConvergence →
        solveGroundState eigh alpha D2Mat vpot = .error .NonConvergence)
    ∧ (∀ e : SolverError, solveGroundState eigh alpha D2Mat vpot = .error e →
        ∀ r : ℝ × List ℝ, solveGroundState eigh alpha D2Mat vpot ≠ .ok r) := by
  refine ⟨fun hne => ?_, fun heq herr => ?_, fun e herr r hok => ?_⟩
  · rw [solveGroundState, if_pos hne]
  · rw [solveGroundState, if_neg (by simp [heq]), herr]
  · rw [herr] at hok
    cases hok

/-- Witness for C4: a `1 × 1` vs `2 × 1` shape mismatch, and a
non-converging oracle on matching `1 × 1` shapes. -/
theorem solveGroundState_errors_witness :
    (shape [[1]] ≠ shape [[1], [2]]
      ∧ solveGroundState (fun _ => .error .NonConvergence) 1 [[1]] [[1], [2]]
        = .error .DimensionMismatch)
    ∧ (shape [[1]] = shape [[1]]
      ∧ solveGroundState (fun _ => .error .NonConvergence) 1 [[1]] [[1]]
        = .error .NonConvergence) := by
  have h1 := (solveGroundState_errors (fun _ => .error .NonConvergence) 1 [[1]] [[1], [2]]).1
  have h2 := (solveGroundState_errors (fun _ => .error .NonConvergence) 1 [[1]] [[1]]).2.1
  exact ⟨⟨by simp [shape], h1 (by simp [shape])⟩, ⟨rfl, h2 rfl rfl⟩⟩

end HO
